import Mathlib

/-
Verification of the PoDoFo stream-device and encoding-map layer.

The definitions below are shallow embeddings of the C++ sources:
  src/podofo/auxiliary/StreamDevice.cpp
  src/podofo/main/PdfEncodingMap.cpp
  src/podofo/main/PdfSigningContext.h
Machine integers (size_t, unsigned, uint8_t) are modelled as Nat with
explicit reductions modulo 2 ^ 64, 2 ^ 32 or 256 where the C code can wrap;
ssize_t offsets are modelled as Int; functions that raise a PdfError are
modelled with Except.
-/

namespace PoDoFo

/-- Error codes of PdfError raised by the functions embedded here. -/
inductive PdfErrorCode where
  | ioError
  | valueOutOfRange
  | invalidEnumValue
  | internalLogic
  | notImplemented
  deriving DecidableEq

/-- Width of size_t on the host (64 bit). -/
def wordSize : Nat := 2 ^ 64

/-- The C conversion (size_t)x of a signed value x, i.e. reduction of the
integer modulo 2 ^ 64 into the range [0, 2 ^ 64). -/
def castW (x : Int) : Nat := (x % (wordSize : Int)).toNat

/-- The C expression a - b on size_t operands (modular subtraction). -/
def subW (a b : Nat) : Nat := (a + (wordSize - b % wordSize)) % wordSize

/-- The C expression a + b on size_t operands (modular addition). -/
def addW (a b : Nat) : Nat := (a + b) % wordSize

/-- Numeric values of the SeekDirection enumerators, in declaration order. -/
def seekBegin : Nat := 0

/-- SeekDirection::Current. -/
def seekCurrent : Nat := 1

/-- SeekDirection::End. -/
def seekEnd : Nat := 2

/-- Embedding of StreamDevice::SeekPosition (StreamDevice.cpp, lines 96-143).
curpos and devlen are size_t, offset is ssize_t, and the direction is the
numeric value of the SeekDirection enumerator (the default switch case
covers every other value). -/
def SeekPosition (curpos devlen : Nat) (offset : Int) (direction : Nat) :
    Except PdfErrorCode Nat :=
  if direction = seekBegin then
    if offset < 0 then
      .error .ioError
    else if devlen < castW offset then
      .error .valueOutOfRange
    else
      .ok (castW offset)
  else if direction = seekCurrent then
    if offset = 0 then
      .ok curpos
    else if 0 < offset then
      if subW devlen curpos < castW offset then
        .error .valueOutOfRange
      else
        .ok (addW curpos (castW offset))
    else
      if curpos < castW (-offset) then
        .error .valueOutOfRange
      else
        .ok (addW curpos (castW offset))
  else if direction = seekEnd then
    if 0 < offset then
      .error .ioError
    else if devlen < castW (-offset) then
      .error .valueOutOfRange
    else
      .ok (addW devlen (castW offset))
  else
    .error .invalidEnumValue

/-- State of a NullStreamDevice (StreamDevice.cpp, lines 556-612): only a
logical length and position are tracked. -/
structure NullStreamDevice where
  mLength : Nat
  mPosition : Nat
  deriving DecidableEq

/-- Embedding of NullStreamDevice::readChar (lines 599-607): outputs the
null character, advances the position when one is available, and always
returns false. Result: (new state, output char, return value). -/
def NullStreamDevice.readChar (dev : NullStreamDevice) :
    NullStreamDevice × Nat × Bool :=
  if dev.mPosition = dev.mLength then
    (dev, 0, false)
  else
    ({ dev with mPosition := dev.mPosition + 1 }, 0, false)

/-- Embedding of NullStreamDevice::peek (lines 561-565): outputs the null
character and reports whether the position differs from the length. -/
def NullStreamDevice.peek (dev : NullStreamDevice) : Nat × Bool :=
  (0, decide (dev.mLength ≠ dev.mPosition))

/-- Embedding of NullStreamDevice::Eof (lines 577-580). -/
def NullStreamDevice.Eof (dev : NullStreamDevice) : Bool :=
  decide (dev.mPosition = dev.mLength)

/-- State of a SpanStreamDevice (StreamDevice.cpp, lines 614-720): a fixed
caller-owned buffer with a tracked length and position. Bytes are Nats
below 256. -/
structure SpanStreamDevice where
  mBuffer : List Nat
  mLength : Nat
  mPosition : Nat
  deriving DecidableEq

/-- The effect of memcpy(dst + pos, src, src.length) on a list: overwrite
the segment of dst starting at pos with src. -/
def listOverwrite (dst : List Nat) (pos : Nat) (src : List Nat) : List Nat :=
  dst.take pos ++ src ++ dst.drop (pos + src.length)

/-- Embedding of SpanStreamDevice::writeBuffer (lines 674-681). The error
is raised before any mutation, so the device component of the result is
the unchanged input device on failure. -/
def SpanStreamDevice.writeBuffer (dev : SpanStreamDevice) (buf : List Nat) :
    SpanStreamDevice × Option PdfErrorCode :=
  if dev.mLength < dev.mPosition + buf.length then
    (dev, some .valueOutOfRange)
  else
    ({ mBuffer := listOverwrite dev.mBuffer dev.mPosition buf,
       mLength := dev.mLength,
       mPosition := dev.mPosition + buf.length }, none)

/-- Embedding of SpanStreamDevice::Eof (lines 664-667). -/
def SpanStreamDevice.Eof (dev : SpanStreamDevice) : Bool :=
  decide (dev.mPosition = dev.mLength)

/-- The FileMode enumeration (intent when opening a file). -/
inductive FileMode where
  | CreateNew
  | Create
  | Open
  | OpenOrCreate
  | Truncate
  | Append
  deriving DecidableEq, Fintype

/-- The DeviceAccess flag enumeration: Read = 1, Write = 2,
ReadWrite = Read | Write = 3. -/
inductive DeviceAccess where
  | Read
  | Write
  | ReadWrite
  deriving DecidableEq, Fintype

/-- Numeric flag value of a DeviceAccess enumerator. -/
def DeviceAccess.flagValue : DeviceAccess → Nat
  | .Read => 1
  | .Write => 2
  | .ReadWrite => 3

/-- The C test (access & DeviceAccess::Write) != DeviceAccess{ }. -/
def DeviceAccess.hasWriteFlag (access : DeviceAccess) : Bool :=
  decide (access.flagValue &&& DeviceAccess.Write.flagValue ≠ 0)

/-- Models the host fopen on the computed mode string, for a path on a
writable filesystem: modes beginning with the character r require the
file to exist, the w and a modes create the file when missing. The mode
strings reaching this point are exactly r, r+, w, w+, a, a+. -/
def fopenSucceeds (fileExists : Bool) (cmode : String) : Bool :=
  if cmode = "r" ∨ cmode = "r+" then fileExists else true

/-- The tail of createFile after the mode string has been computed
(StreamDevice.cpp, lines 855-859): the utls::fopen call followed by the
null check raising IOError. On success the computed mode string is
returned in place of the opened FILE handle. -/
def openComputedMode (fileExists : Bool) (cmode : String) :
    Except PdfErrorCode String :=
  if fopenSucceeds fileExists cmode then .ok cmode else .error .ioError

/-- Embedding of the static createFile (StreamDevice.cpp, lines 722-860).
The filesystem is abstracted to the one fact the function queries,
fs::exists on the given path; the Windows-only binary suffix is omitted. -/
def createFile (fileExists : Bool) (mode : FileMode) (access : DeviceAccess) :
    Except PdfErrorCode String :=
  match mode with
  | .CreateNew =>
    if access = .Read then
      .error .ioError
    else if fileExists then
      .error .ioError
    else
      match access with
      | .Write => openComputedMode fileExists "w"
      | .ReadWrite => openComputedMode fileExists "w+"
      | .Read => .error .invalidEnumValue
  | .Create =>
    if access = .Read then
      .error .ioError
    else
      match access with
      | .Write => openComputedMode fileExists "w"
      | .ReadWrite => openComputedMode fileExists "w+"
      | .Read => .error .invalidEnumValue
  | .Open =>
    if access.hasWriteFlag = true ∧ fileExists = false then
      .error .ioError
    else
      match access with
      | .Read => openComputedMode fileExists "r"
      | .Write => openComputedMode fileExists "w"
      | .ReadWrite => openComputedMode fileExists "r+"
  | .OpenOrCreate =>
    if access = .Read then
      .error .ioError
    else
      match access with
      | .Write => openComputedMode fileExists "w"
      | .ReadWrite => openComputedMode fileExists (if fileExists then "r+" else "w+")
      | .Read => .error .invalidEnumValue
  | .Truncate =>
    if access = .Read then
      .error .ioError
    else if fileExists = false then
      .error .ioError
    else
      match access with
      | .Write => openComputedMode fileExists "w"
      | .ReadWrite => openComputedMode fileExists "w+"
      | .Read => .error .invalidEnumValue
  | .Append =>
    if access = .Read then
      .error .ioError
    else
      match access with
      | .Write => openComputedMode fileExists "a"
      | .ReadWrite => openComputedMode fileExists "a+"
      | .Read => .error .invalidEnumValue

/-- A PdfCharCode: a char code value together with the number of bytes of
its code space. -/
structure PdfCharCode where
  code : Nat
  codeSpaceSize : Nat
  deriving DecidableEq

/-- The limits of an encoding map (min and max code size in bytes, first
and last char codes). -/
structure PdfEncodingLimits where
  minCodeSize : Nat
  maxCodeSize : Nat
  firstChar : PdfCharCode
  lastChar : PdfCharCode
  deriving DecidableEq

namespace PdfEncodingMap

/-- Embedding of PdfEncodingMap::TryGetCharCode over a span of code points
(PdfEncodingMap.cpp, lines 89-104). The virtual single-code-point lookup
tryGetCharCode, the virtual ligature lookup tryGetCharCodeSpan and
HasLigaturesSupport are parameters; a result of none stands for returning
false with the output char code cleared. -/
def TryGetCharCode (hasLigaturesSupport : Bool)
    (tryGetCharCode : Nat → Option PdfCharCode)
    (tryGetCharCodeSpan : List Nat → Option PdfCharCode)
    (codePoints : List Nat) : Option PdfCharCode :=
  if codePoints.length = 1 then
    tryGetCharCode (codePoints.headD 0)
  else if codePoints.length = 0 ∨ hasLigaturesSupport = false then
    none
  else
    tryGetCharCodeSpan codePoints

/-- The loop of PdfEncodingMap::tryGetNextCodePoints (PdfEncodingMap.cpp,
lines 218-254). code is the accumulated unsigned value, i the number of
bytes accumulated after the next byte is taken; on success the result
carries the matched code unit, the looked-up code points and the bytes
left after the consumed ones. -/
def tryGetNextCodePointsLoop (limits : PdfEncodingLimits)
    (tryGetCodePoints : PdfCharCode → Option (List Nat)) :
    Nat → Nat → List Nat → Option (PdfCharCode × List Nat × List Nat)
  | _, _, [] => none
  | code, i, b :: rest =>
    if limits.maxCodeSize < i then
      none
    else
      let code2 := ((code <<< 8) % 2 ^ 32) ||| (b % 256)
      let codeUnit : PdfCharCode := ⟨code2, i⟩
      match if i < limits.minCodeSize then none else tryGetCodePoints codeUnit with
      | none => tryGetNextCodePointsLoop limits tryGetCodePoints code2 (i + 1) rest
      | some cps => some (codeUnit, cps, rest)

/-- Embedding of PdfEncodingMap::tryGetNextCodePoints: the loop started
with code = 0 and i = 1 on the bytes remaining at the text cursor. -/
def tryGetNextCodePoints (limits : PdfEncodingLimits)
    (tryGetCodePoints : PdfCharCode → Option (List Nat)) (bytes : List Nat) :
    Option (PdfCharCode × List Nat × List Nat) :=
  tryGetNextCodePointsLoop limits tryGetCodePoints 0 1 bytes

end PdfEncodingMap

namespace PdfEncodingMapOneByte

/-- The for loop of PdfEncodingMapOneByte::AppendToUnicodeEntries
(PdfEncodingMap.cpp, lines 468-479), unrolled on the number of remaining
codes: a code whose TryGetCodePoints lookup fails contributes nothing,
a mapped code contributes its rendered UTF-16 literal and a newline. -/
def bfrangeLoop (tryGetCodePoints : Nat → Option (List Nat))
    (appendUTF16 : List Nat → String) : Nat → Nat → String
  | _, 0 => ""
  | code, n + 1 =>
    (match tryGetCodePoints code with
     | none => ""
     | some cps => appendUTF16 cps ++ "\n") ++
    bfrangeLoop tryGetCodePoints appendUTF16 (code + 1) n

/-- Embedding of PdfEncodingMapOneByte::AppendToUnicodeEntries
(PdfEncodingMap.cpp, lines 453-482). The hex rendering of a char code
(PdfCharCode::WriteHexTo) and the UTF-16BE literal rendering
(AppendUTF16CodeTo) are abstracted as string-valued parameters, as is the
virtual TryGetCodePoints lookup; the result is the concatenation of all
bytes written to the output stream. -/
def AppendToUnicodeEntries (writeHex : PdfCharCode → String)
    (appendUTF16 : List Nat → String)
    (tryGetCodePoints : Nat → Option (List Nat))
    (limits : PdfEncodingLimits) : String :=
  "1 beginbfrange\n" ++
  writeHex limits.firstChar ++ " " ++ writeHex limits.lastChar ++ " [\n" ++
  bfrangeLoop tryGetCodePoints appendUTF16 limits.firstChar.code
    (limits.lastChar.code + 1 - limits.firstChar.code) ++
  "]\n" ++ "endbfrange\n"

end PdfEncodingMapOneByte

namespace PdfBuiltInEncoding

/-- The effect of the C++ expression m[k] = v on a std::map m: replace the
value when the key is present, insert the pair otherwise. -/
def mapAssign (m : List (Nat × Nat)) (k v : Nat) : List (Nat × Nat) :=
  if m.any (fun p => p.1 == k) then
    m.map (fun p => if p.1 == k then (k, v) else p)
  else
    m ++ [(k, v)]

/-- Lookup in the association-list model of a std::map. -/
def mapFind (m : List (Nat × Nat)) (k : Nat) : Option Nat :=
  (m.find? (fun p => p.1 == k)).map (fun p => p.2)

/-- The first n iterations of the loop of
PdfBuiltInEncoding::initEncodingTable (PdfEncodingMap.cpp, lines 602-614):
for i = 0..n-1, m_EncodingTable[cpUnicodeTable[i]] = i. The subclass's
256-entry forward table GetToUnicodeTable is a parameter, consulted only
at indices below 256. -/
def initEncodingTable (table : Nat → Nat) : Nat → List (Nat × Nat)
  | 0 => []
  | n + 1 => mapAssign (initEncodingTable table n) (table n) n

/-- Embedding of PdfBuiltInEncoding::tryGetCharCode (PdfEncodingMap.cpp,
lines 616-628): look the code point up in the lazily built reverse table
(built here eagerly, which is equivalent since the build is
deterministic); a hit yields a one-byte char code. -/
def tryGetCharCode (table : Nat → Nat) (codePoint : Nat) :
    Option PdfCharCode :=
  (mapFind (initEncodingTable table 256) codePoint).map (fun c => ⟨c, 1⟩)

/-- Embedding of PdfBuiltInEncoding::tryGetCodePoints (PdfEncodingMap.cpp,
lines 630-639): fail on codes of 256 or more, otherwise yield the span
holding the single forward-table entry of the code. -/
def tryGetCodePoints (table : Nat → Nat) (codeUnit : PdfCharCode) :
    Option (List Nat) :=
  if 256 ≤ codeUnit.code then
    none
  else
    some [table codeUnit.code]

end PdfBuiltInEncoding

/-- A PdfReference: indirect object number (uint32) and generation number
(uint16). Its operator== compares both components. -/
structure PdfReference where
  objectNumber : Nat
  generationNumber : Nat
  deriving DecidableEq

/-- A PdfSignerId (PdfSigningContext.h, lines 14-36): a signature
reference and a signer index (unsigned). -/
structure PdfSignerId where
  mSignatureRef : PdfReference
  mSignerIndex : Nat
  deriving DecidableEq

/-- Embedding of PdfSignerId::operator== (PdfSigningContext.h, lines
23-26): componentwise comparison of the signature reference and the
signer index. -/
def PdfSignerId.operatorEq (a b : PdfSignerId) : Bool :=
  decide (a.mSignatureRef = b.mSignatureRef) &&
  decide (a.mSignerIndex = b.mSignerIndex)

/-- Embedding of the std::hash specialization for PdfSignerId
(PdfSigningContext.h, lines 43-51). The first xor is carried out at the
width of uint32 operands (the shifted generation number is truncated to
32 bits, as the C integer conversions do), the second at the width of
size_t after the cast of the signer index. -/
def hashSignerId (id : PdfSignerId) : Nat :=
  ((id.mSignatureRef.objectNumber ^^^
      ((id.mSignatureRef.generationNumber <<< 16) % 2 ^ 32)) % 2 ^ 32 ^^^
    ((id.mSignerIndex <<< 24) % wordSize)) % wordSize

/-- Decidable equality of Except values with decidable components. -/
instance instDecEqExceptPodofo {ε α : Type} [DecidableEq ε] [DecidableEq α] :
    DecidableEq (Except ε α)
  | .error a, .error b =>
    if h : a = b then .isTrue (by rw [h])
    else .isFalse (fun c => h (Except.error.inj c))
  | .error _, .ok _ => .isFalse (fun c => Except.noConfusion c)
  | .ok _, .error _ => .isFalse (fun c => Except.noConfusion c)
  | .ok a, .ok b =>
    if h : a = b then .isTrue (by rw [h])
    else .isFalse (fun c => h (Except.ok.inj c))

/-- Concatenation of a list of strings, used to state the shape of the
serialized beginbfrange block. -/
def strJoin (l : List String) : String :=
  l.foldr (fun a b => a ++ b) ""

/-- A concrete 256-entry forward table used as a test fixture: byte code 0
maps to the code point 65, every other byte code has the null code point
as its entry. -/
def sampleForwardTable : Nat → Nat :=
  fun i => if i = 0 then 65 else 0

/-- The code-point lookup of the variable-width map of the claim about
tryGetNextCodePoints: a width-1 codespace holding the codes 0x00-0x7F and
a width-2 codespace holding the codes 0x8140-0xFEFE, each code resolving
to itself as its single code point. -/
def exampleTwoRangeLookup : PdfCharCode → Option (List Nat) :=
  fun cu =>
    if cu.codeSpaceSize = 1 ∧ cu.code ≤ 0x7F then some [cu.code]
    else if cu.codeSpaceSize = 2 ∧ 0x8140 ≤ cu.code ∧ cu.code ≤ 0xFEFE then
      some [cu.code]
    else none

/-- The limits of the variable-width example map: min code size 1, max
code size 2. -/
def exampleTwoRangeLimits : PdfEncodingLimits :=
  ⟨1, 2, ⟨0, 1⟩, ⟨0xFEFE, 2⟩⟩

/-- A concrete span device used as a test fixture: three bytes, length 3,
position 1. -/
def sampleSpanDevice : SpanStreamDevice :=
  ⟨[0, 0, 0], 3, 1⟩

end PoDoFo

namespace PoDoFo

/-- C1: StreamDevice::SeekPosition, assuming curpos at most devlen, devlen
in the size_t range and a representable ssize_t offset: with direction
Begin a negative offset fails with IOError (not ValueOutOfRange as
claimed) and an offset above devlen fails with ValueOutOfRange, otherwise
the offset is returned; with direction Current, offset 0 returns curpos, a
positive offset above devlen - curpos or a negative offset of magnitude
above curpos fails with ValueOutOfRange, otherwise curpos + offset is
returned; with direction End a positive offset fails with IOError, a
magnitude above devlen fails with ValueOutOfRange, otherwise devlen +
offset is returned; every other direction value fails with
InvalidEnumValue. -/
theorem seekPosition_spec (curpos devlen : Nat) (offset : Int)
    (h1 : curpos ≤ devlen) (h2 : devlen < wordSize)
    (h3 : offset.natAbs < 2 ^ 63) :
    (SeekPosition curpos devlen offset seekBegin =
      if offset < 0 then .error .ioError
      else if (devlen : Int) < offset then .error .valueOutOfRange
      else .ok offset.toNat)
    ∧ (SeekPosition curpos devlen offset seekCurrent =
      if offset = 0 then .ok curpos
      else if 0 < offset then
        if devlen - curpos < offset.toNat then .error .valueOutOfRange
        else .ok (curpos + offset.toNat)
      else
        if curpos < offset.natAbs then .error .valueOutOfRange
        else .ok (curpos - offset.natAbs))
    ∧ (SeekPosition curpos devlen offset seekEnd =
      if 0 < offset then .error .ioError
      else if devlen < offset.natAbs then .error .valueOutOfRange
      else .ok (devlen - offset.natAbs))
    ∧ ∀ d, 2 < d → SeekPosition curpos devlen offset d = .error .invalidEnumValue := by
  unfold wordSize at h2
  refine ⟨?_, ?_, ?_, ?_⟩
  · simp only [SeekPosition, seekBegin, seekCurrent, seekEnd, castW, subW, addW, wordSize]
    split_ifs <;>
      first
        | rfl
        | contradiction
        | omega
        | (simp only [Except.ok.injEq]; omega)
  · simp only [SeekPosition, seekBegin, seekCurrent, seekEnd, castW, subW, addW, wordSize]
    split_ifs <;>
      first
        | rfl
        | contradiction
        | omega
        | (simp only [Except.ok.injEq]; omega)
  · simp only [SeekPosition, seekBegin, seekCurrent, seekEnd, castW, subW, addW, wordSize]
    split_ifs <;>
      first
        | rfl
        | contradiction
        | omega
        | (simp only [Except.ok.injEq]; omega)
  · intro d hd
    simp only [SeekPosition, seekBegin, seekCurrent, seekEnd]
    rw [if_neg (by omega), if_neg (by omega), if_neg (by omega)]

/-- Witness for seekPosition_spec: a device of length 10 at position 3,
seeking by -2 from the current position, lands at position 1. -/
theorem seekPosition_spec_witness :
    SeekPosition 3 10 (-2) seekCurrent = .ok 1 := by
  have h := (seekPosition_spec 3 10 (-2) (by decide) (by decide) (by decide)).2.1
  rw [h]
  decide

/-- Counterexample to the claimed failure mode of SeekPosition with
direction Begin and a negative offset: the code raises IOError there, not
ValueOutOfRange. -/
theorem seekPosition_begin_negative_cex :
    SeekPosition 0 10 (-1) seekBegin = .error .ioError ∧
    SeekPosition 0 10 (-1) seekBegin ≠ .error .valueOutOfRange := by
  decide

end PoDoFo

namespace PoDoFo

namespace PdfBuiltInEncoding

theorem assign_comp_self (k v : Nat) :
    ((fun p : Nat × Nat => p.1 == k) ∘ (fun p => if p.1 == k then (k, v) else p))
      = fun p : Nat × Nat => p.1 == k := by
  funext p
  by_cases hp : p.1 = k
  · simp [hp]
  · simp [hp]

theorem assign_comp_other (k v k' : Nat) :
    ((fun p : Nat × Nat => p.1 == k') ∘ (fun p => if p.1 == k then (k, v) else p))
      = fun p : Nat × Nat => p.1 == k' := by
  funext p
  by_cases hp : p.1 = k
  · simp [hp]
  · simp [hp]

theorem mapFind_assign_self (m : List (Nat × Nat)) (k v : Nat) :
    mapFind (mapAssign m k v) k = some v := by
  unfold mapAssign mapFind
  by_cases h : m.any (fun p => p.1 == k) = true
  · rw [if_pos h, List.find?_map, assign_comp_self]
    cases hf : m.find? (fun p => p.1 == k) with
    | none =>
      obtain ⟨x, hx1, hx2⟩ := List.any_eq_true.mp h
      have hall := List.find?_eq_none.mp hf
      exact absurd hx2 (by simpa using hall x hx1)
    | some p =>
      have hp : p.1 = k := by simpa using List.find?_some hf
      simp [hp]
  · rw [if_neg h, List.find?_append]
    have hnone : m.find? (fun p => p.1 == k) = none := by
      rw [List.find?_eq_none]
      intro x hx
      simp only [Bool.not_eq_true]
      rcases Bool.eq_false_or_eq_true (x.1 == k) with hb | hb
      · exact absurd (List.any_eq_true.mpr ⟨x, hx, hb⟩) h
      · exact hb
    rw [hnone]
    simp [List.find?]

theorem mapFind_assign_other (m : List (Nat × Nat)) (k v k' : Nat) (h : k' ≠ k) :
    mapFind (mapAssign m k v) k' = mapFind m k' := by
  unfold mapAssign mapFind
  by_cases hany : m.any (fun p => p.1 == k) = true
  · rw [if_pos hany, List.find?_map, assign_comp_other k v k']
    cases hf : m.find? (fun p => p.1 == k') with
    | none => rfl
    | some p =>
      have hp2 : p.1 = k' := by simpa using List.find?_some hf
      have hne : ¬ p.1 = k := by rw [hp2]; exact h
      simp [hne]
  · rw [if_neg hany, List.find?_append]
    have hb : (k == k') = false := by simpa using Ne.symm h
    have hone : List.find? (fun p : Nat × Nat => p.1 == k') [(k, v)] = none := by
      simp [List.find?, hb]
    rw [hone, Option.or_none]

theorem initEncodingTable_lastWrite (table : Nat → Nat) (i cp : Nat) :
    ∀ n, i < n → table i = cp → (∀ j, i < j → j < n → table j ≠ cp) →
    mapFind (initEncodingTable table n) cp = some i := by
  intro n
  induction n with
  | zero => intro h; omega
  | succ n ih =>
    intro h1 h2 h3
    rcases Nat.lt_succ_iff_lt_or_eq.mp h1 with h4 | h4
    · have hne : table n ≠ cp := h3 n h4 (Nat.lt_succ_self n)
      rw [initEncodingTable, mapFind_assign_other _ _ _ _ (fun hc => hne hc.symm)]
      exact ih h4 h2 (fun j hj1 hj2 => h3 j hj1 (Nat.lt_succ_of_lt hj2))
    · subst h4
      rw [initEncodingTable, h2, mapFind_assign_self]

end PdfBuiltInEncoding

/-- C2: for a built-in encoding with forward table `table`, every byte
code whose forward-table entry is not repeated at any higher byte code
round-trips: tryGetCharCode at that entry returns the original code. This
holds for the null code point exactly as for any other entry, because
initEncodingTable inserts all 256 entries into the reverse table — null
entries are not excluded, contrary to the claim (see the
counterexample). -/
theorem builtin_tryGetCharCode_lastWrite (table : Nat → Nat) (i cp : Nat)
    (h1 : i < 256) (h2 : table i = cp)
    (h3 : ∀ j, i < j → j < 256 → table j ≠ cp) :
    PdfBuiltInEncoding.tryGetCharCode table cp = some ⟨i, 1⟩ := by
  unfold PdfBuiltInEncoding.tryGetCharCode
  rw [PdfBuiltInEncoding.initEncodingTable_lastWrite table i cp 256 h1 h2 h3]
  rfl

theorem builtin_tryGetCharCode_lastWrite_witness :
    PdfBuiltInEncoding.tryGetCharCode sampleForwardTable 65 = some ⟨0, 1⟩ :=
  builtin_tryGetCharCode_lastWrite sampleForwardTable 0 65 (by decide) rfl
    (fun j hj1 _ => by simp [sampleForwardTable, Nat.pos_iff_ne_zero.mp hj1])

theorem builtin_reverse_includes_null_cex :
    PdfBuiltInEncoding.tryGetCharCode sampleForwardTable 0 = some ⟨255, 1⟩ ∧
    sampleForwardTable 255 = 0 := by
  constructor
  · unfold PdfBuiltInEncoding.tryGetCharCode
    rw [PdfBuiltInEncoding.initEncodingTable_lastWrite sampleForwardTable 255 0 256
      (by decide) rfl (fun j hj1 hj2 => absurd hj2 (by omega))]
    rfl
  · rfl

end PoDoFo

namespace PoDoFo

theorem bfrangeLoop_eq_filterMap (tryGet : Nat → Option (List Nat))
    (utf16 : List Nat → String) :
    ∀ (n code : Nat), PdfEncodingMapOneByte.bfrangeLoop tryGet utf16 code n =
      strJoin ((List.range' code n).filterMap
        (fun c => (tryGet c).map (fun cps => utf16 cps ++ "\n"))) := by
  intro n
  induction n with
  | zero => intro code; rfl
  | succ n ih =>
    intro code
    have hr : List.range' code (n + 1) = code :: List.range' (code + 1) n := rfl
    rw [hr, List.filterMap_cons]
    simp only [PdfEncodingMapOneByte.bfrangeLoop]
    cases h : tryGet code with
    | none => simp [h, ih]
    | some cps => simp [h, ih, strJoin]

/-- C3: PdfEncodingMapOneByte::AppendToUnicodeEntries always emits exactly
one beginbfrange block spanning the full FirstChar..LastChar range as a
bracketed array holding, in code order, one UTF-16BE literal per code for
which TryGetCodePoints succeeds; a code for which the lookup fails is
dropped by the filterMap, leaving a gap rather than a zero-filled
entry. -/
theorem appendToUnicodeEntries_structure (writeHex : PdfCharCode → String)
    (appendUTF16 : List Nat → String) (tryGet : Nat → Option (List Nat))
    (limits : PdfEncodingLimits) :
    PdfEncodingMapOneByte.AppendToUnicodeEntries writeHex appendUTF16 tryGet limits =
      "1 beginbfrange\n" ++ writeHex limits.firstChar ++ " " ++
      writeHex limits.lastChar ++ " [\n" ++
      strJoin ((List.range' limits.firstChar.code
          (limits.lastChar.code + 1 - limits.firstChar.code)).filterMap
        (fun c => (tryGet c).map (fun cps => appendUTF16 cps ++ "\n"))) ++
      "]\n" ++ "endbfrange\n" := by
  unfold PdfEncodingMapOneByte.AppendToUnicodeEntries
  rw [bfrangeLoop_eq_filterMap]

theorem tryGetNextCodePointsLoop_none (limits : PdfEncodingLimits)
    (lookup : PdfCharCode → Option (List Nat)) (hfail : ∀ cu, lookup cu = none) :
    ∀ (bytes : List Nat) (code i : Nat),
    PdfEncodingMap.tryGetNextCodePointsLoop limits lookup code i bytes = none := by
  intro bytes
  induction bytes with
  | nil => intro code i; rfl
  | cons b rest ih =>
    intro code i
    simp only [PdfEncodingMap.tryGetNextCodePointsLoop, hfail, ite_self]
    split
    · rfl
    · exact ih _ _

/-- C4: PdfEncodingMap::tryGetNextCodePoints accumulates bytes one at a
time, attempting a lookup once at least MinCodeSize bytes are
accumulated, consuming exactly the matched bytes on the first hit. On the
example map with a width-1 codespace 0x00-0x7F and a width-2 codespace
0x8140-0xFEFE, the input 0x81 0x40 decodes as the single two-byte code
0x8140 consuming both bytes, while 0x41 0x42 decodes as the one-byte code
0x41 leaving 0x42; exhausted input fails, input exceeding MaxCodeSize
without a match fails, an empty input fails for every map, and a map whose
lookup never succeeds fails on every input. -/
theorem tryGetNextCodePoints_spec :
    (PdfEncodingMap.tryGetNextCodePoints exampleTwoRangeLimits exampleTwoRangeLookup
        [0x81, 0x40] = some (⟨0x8140, 2⟩, [0x8140], []))
    ∧ (PdfEncodingMap.tryGetNextCodePoints exampleTwoRangeLimits exampleTwoRangeLookup
        [0x41, 0x42] = some (⟨0x41, 1⟩, [0x41], [0x42]))
    ∧ (PdfEncodingMap.tryGetNextCodePoints exampleTwoRangeLimits exampleTwoRangeLookup
        [0x81] = none)
    ∧ (PdfEncodingMap.tryGetNextCodePoints exampleTwoRangeLimits exampleTwoRangeLookup
        [0xFF, 0xFF, 0x01] = none)
    ∧ (∀ limits lookup, PdfEncodingMap.tryGetNextCodePoints limits lookup [] = none)
    ∧ (∀ limits lookup bytes, (∀ cu, lookup cu = none) →
        PdfEncodingMap.tryGetNextCodePoints limits lookup bytes = none) := by
  refine ⟨by decide, by decide, by decide, by decide, fun _ _ => rfl, ?_⟩
  intro limits lookup bytes hfail
  exact tryGetNextCodePointsLoop_none limits lookup hfail bytes 0 1

theorem tryGetNextCodePoints_spec_witness :
    PdfEncodingMap.tryGetNextCodePoints exampleTwoRangeLimits (fun _ => none)
      [0x81] = none :=
  tryGetNextCodePoints_spec.2.2.2.2.2 exampleTwoRangeLimits (fun _ => none) [0x81]
    (fun _ => rfl)

/-- C5: createFile fails with IOError for CreateNew on an existing path
under every access value; Open with Read access on a missing path fails
with IOError (via the failed host fopen); OpenOrCreate with ReadWrite
access selects mode r+ when the file exists and w+ when it does not; and
every FileMode other than Open combined with Read access fails with
IOError. -/
theorem createFile_matrix :
    (∀ access, createFile true .CreateNew access = .error .ioError)
    ∧ createFile false .Open .Read = .error .ioError
    ∧ createFile true .OpenOrCreate .ReadWrite = .ok "r+"
    ∧ createFile false .OpenOrCreate .ReadWrite = .ok "w+"
    ∧ (∀ (mode : FileMode) (fileExists : Bool),
        mode = .Open ∨ createFile fileExists mode .Read = .error .ioError) := by
  decide

/-- C6: writing n bytes to a SpanStreamDevice of length L at position P
(P at most L) fails with ValueOutOfRange leaving the device unchanged
when P + n exceeds L, and writing exactly L - P bytes succeeds, leaving
the length at L, the position at L and Eof() true. -/
theorem spanDevice_writeBuffer_spec (dev : SpanStreamDevice) (buf : List Nat)
    (h : dev.mPosition ≤ dev.mLength) :
    (dev.mLength < dev.mPosition + buf.length →
      dev.writeBuffer buf = (dev, some .valueOutOfRange))
    ∧ (buf.length = dev.mLength - dev.mPosition →
      (dev.writeBuffer buf).2 = none ∧
      (dev.writeBuffer buf).1.mLength = dev.mLength ∧
      (dev.writeBuffer buf).1.mPosition = dev.mLength ∧
      (dev.writeBuffer buf).1.Eof = true) := by
  constructor
  · intro hover
    unfold SpanStreamDevice.writeBuffer
    rw [if_pos hover]
  · intro hlen
    have hnot : ¬ dev.mLength < dev.mPosition + buf.length := by omega
    unfold SpanStreamDevice.writeBuffer
    rw [if_neg hnot]
    refine ⟨rfl, rfl, by simp; omega, ?_⟩
    simp only [SpanStreamDevice.Eof, decide_eq_true_eq]
    omega

theorem spanDevice_writeBuffer_spec_witness :
    (sampleSpanDevice.writeBuffer [7, 7]).1.Eof = true :=
  ((spanDevice_writeBuffer_spec sampleSpanDevice [7, 7] (by decide)).2
    (by decide)).2.2.2

/-- C7: PdfEncodingMap::TryGetCharCode over a span of code points: an
empty span fails with the output cleared, a span of two or more code
points fails when the map has no ligature support, and a singleton span
always delegates to the single-code-point lookup regardless of ligature
support. -/
theorem tryGetCharCode_span_spec (hasLig : Bool)
    (single : Nat → Option PdfCharCode) (spanFn : List Nat → Option PdfCharCode)
    (codePoints : List Nat) :
    (codePoints = [] →
      PdfEncodingMap.TryGetCharCode hasLig single spanFn codePoints = none)
    ∧ (2 ≤ codePoints.length → hasLig = false →
      PdfEncodingMap.TryGetCharCode hasLig single spanFn codePoints = none)
    ∧ (∀ cp, codePoints = [cp] →
      PdfEncodingMap.TryGetCharCode hasLig single spanFn codePoints = single cp) := by
  refine ⟨?_, ?_, ?_⟩
  · intro h
    subst h
    rfl
  · intro h2 hlig
    unfold PdfEncodingMap.TryGetCharCode
    rw [if_neg (by omega), if_pos (Or.inr hlig)]
  · intro cp h
    subst h
    rfl

theorem tryGetCharCode_span_spec_witness :
    PdfEncodingMap.TryGetCharCode false (fun c => some ⟨c, 1⟩) (fun _ => none)
      [65] = some ⟨65, 1⟩ :=
  (tryGetCharCode_span_spec false (fun c => some ⟨c, 1⟩) (fun _ => none) [65]).2.2
    65 rfl

/-- C8: NullStreamDevice::readChar always outputs the null character and
always returns false; at a non-EOF position it advances the position by
one yet still returns false, at EOF it leaves the device unchanged; peek
on the same device returns true exactly when the position differs from
the length. -/
theorem nullDevice_readChar_spec (dev : NullStreamDevice) :
    (dev.readChar.2 = (0, false))
    ∧ (dev.mPosition = dev.mLength → dev.readChar.1 = dev)
    ∧ (dev.mPosition < dev.mLength →
        dev.readChar.1.mPosition = dev.mPosition + 1 ∧
        dev.readChar.1.mLength = dev.mLength)
    ∧ (dev.peek.2 = true ↔ dev.mPosition ≠ dev.mLength) := by
  refine ⟨?_, ?_, ?_, ?_⟩
  · unfold NullStreamDevice.readChar
    split <;> rfl
  · intro h
    unfold NullStreamDevice.readChar
    rw [if_pos h]
  · intro h
    unfold NullStreamDevice.readChar
    rw [if_neg (by omega)]
    exact ⟨rfl, rfl⟩
  · unfold NullStreamDevice.peek
    simp [ne_comm]

theorem nullDevice_readChar_spec_witness :
    (⟨5, 2⟩ : NullStreamDevice).readChar.1.mPosition = 2 + 1 :=
  ((nullDevice_readChar_spec ⟨5, 2⟩).2.2.1 (by decide)).1

/-- C9: the hash of a PdfSignerId whose components are in their C type
ranges equals the xor of the object number, the generation number shifted
left by 16 bits and the signer index shifted left by 24 bits; and two
PdfSignerId values compare equal exactly when both their signature
references and their signer indices are equal. -/
theorem signerId_hash_eq_spec (id : PdfSignerId)
    (h1 : id.mSignatureRef.objectNumber < 2 ^ 32)
    (h2 : id.mSignatureRef.generationNumber < 2 ^ 16)
    (h3 : id.mSignerIndex < 2 ^ 32) :
    hashSignerId id =
      id.mSignatureRef.objectNumber ^^^
        (id.mSignatureRef.generationNumber <<< 16) ^^^
        (id.mSignerIndex <<< 24)
    ∧ ∀ a b : PdfSignerId, (a.operatorEq b = true ↔
        a.mSignatureRef = b.mSignatureRef ∧ a.mSignerIndex = b.mSignerIndex) := by
  constructor
  · unfold hashSignerId wordSize
    have hg : id.mSignatureRef.generationNumber <<< 16 < 2 ^ 32 := by
      rw [Nat.shiftLeft_eq]
      omega
    have hx : id.mSignatureRef.objectNumber ^^^
        (id.mSignatureRef.generationNumber <<< 16) < 2 ^ 32 :=
      Nat.xor_lt_two_pow h1 hg
    have hi : id.mSignerIndex <<< 24 < 2 ^ 64 := by
      rw [Nat.shiftLeft_eq]
      omega
    have hx2 : (id.mSignatureRef.objectNumber ^^^
        (id.mSignatureRef.generationNumber <<< 16)) ^^^
        (id.mSignerIndex <<< 24) < 2 ^ 64 :=
      Nat.xor_lt_two_pow (lt_trans hx (by norm_num)) hi
    rw [Nat.mod_eq_of_lt hg, Nat.mod_eq_of_lt hx, Nat.mod_eq_of_lt hi,
      Nat.mod_eq_of_lt hx2]
  · intro a b
    unfold PdfSignerId.operatorEq
    simp

theorem signerId_hash_eq_spec_witness :
    hashSignerId ⟨⟨7, 3⟩, 2⟩ = 7 ^^^ (3 <<< 16) ^^^ (2 <<< 24) :=
  (signerId_hash_eq_spec ⟨⟨7, 3⟩, 2⟩ (by norm_num) (by norm_num) (by norm_num)).1

/-- C10: PdfBuiltInEncoding::tryGetCodePoints fails for every char code
of numeric value 256 or more and succeeds for every char code below 256,
yielding the span holding the single forward-table entry of the code —
including a null entry, for which it yields the span holding the single
code point 0 rather than failing. -/
theorem builtin_tryGetCodePoints_spec (table : Nat → Nat)
    (codeUnit : PdfCharCode) :
    (256 ≤ codeUnit.code →
      PdfBuiltInEncoding.tryGetCodePoints table codeUnit = none)
    ∧ (codeUnit.code < 256 →
      PdfBuiltInEncoding.tryGetCodePoints table codeUnit =
        some [table codeUnit.code])
    ∧ (codeUnit.code < 256 → table codeUnit.code = 0 →
      PdfBuiltInEncoding.tryGetCodePoints table codeUnit = some [0]) := by
  refine ⟨?_, ?_, ?_⟩
  · intro h
    unfold PdfBuiltInEncoding.tryGetCodePoints
    rw [if_pos h]
  · intro h
    unfold PdfBuiltInEncoding.tryGetCodePoints
    rw [if_neg (by omega)]
  · intro h h0
    unfold PdfBuiltInEncoding.tryGetCodePoints
    rw [if_neg (by omega), h0]

theorem builtin_tryGetCodePoints_spec_witness :
    PdfBuiltInEncoding.tryGetCodePoints sampleForwardTable ⟨5, 1⟩ = some [0] :=
  (builtin_tryGetCodePoints_spec sampleForwardTable ⟨5, 1⟩).2.2 (by decide) rfl

end PoDoFo
